import Mathlib

/-!
Shallow embedding of the bazels3cache request-handling engine (src/server.ts).

Keys are the request path with the leading slash removed; bodies are byte
lists.  Each HTTP request is embedded as a pure handler function that takes
the current server state together with the outcome of the remote S3 call the
code would issue (the code awaits a promise at that point), and returns the
next state, the HTTP response, and the list of remote-store calls issued.
The asynchronous completion of a background upload is a separate function
(completeUpload), so that the in-flight interval between the launch of an
upload and its terminal continuation is observable.  Timers (the breaker
unpause callback of server.ts lines 161-167) are embedded as the recorded
delay plus an explicit firing function.

src/memorycache.ts and src/config.ts are not part of the snapshot; the Cache
class is modelled from the spec (section 4.1) below, and the Config record
collects the fields exactly as src/server.ts reads them.
-/

namespace BazelS3Cache

/-- Configuration record, immutable for the life of the process.  Fields are
named after the way src/server.ts reads them (config.allowOffline,
config.allowGccDepfiles, config.maxEntrySizeBytes, config.asyncUpload.enabled,
config.asyncUpload.maxPendingUploadMB, config.errorsBeforePausing,
config.pauseMinutes); the two memory-cache capacity controls come from
section 6 of the spec since src/config.ts is not in the snapshot. -/
structure Config where
  allowOffline : Bool
  allowGccDepfiles : Bool
  maxEntrySizeBytes : Nat
  asyncUploadEnabled : Bool
  maxPendingUploadMB : Nat
  errorsBeforePausing : Nat
  pauseMinutes : Nat
  cacheMaxEntrySizeBytes : Nat
  cacheMaxTotalBytes : Nat
deriving Repr, DecidableEq

/-- The shape of an error object rejected by the S3 client, as inspected by
src/server.ts: err.Code (lines 109, 280), err.retryable (line 105) and
err.statusCode (line 126). -/
structure S3Error where
  Code : Option String := none
  retryable : Bool := false
  statusCode : Option Nat := none
deriving Repr, DecidableEq

/-- src/server.ts line 103: isIgnorableError. -/
def isIgnorableError (e : S3Error) : Bool := e.retryable

/-- src/server.ts line 108: isExpiredTokenError. -/
def isExpiredTokenError (e : S3Error) : Bool := e.Code = some "ExpiredToken"

/-- src/server.ts line 112: shouldIgnoreError. -/
def shouldIgnoreError (e : S3Error) (cfg : Config) : Bool :=
  cfg.allowOffline && isIgnorableError e

/-- src/server.ts lines 116-128: getHttpResponseStatusCode.  The final case
mirrors the JS expression err.statusCode || StatusCode.NotFound, where a
missing or zero (falsy) statusCode yields 404. -/
def getHttpResponseStatusCode (e : S3Error) (codeIfIgnoringError : Nat)
    (cfg : Config) : Nat :=
  if isExpiredTokenError e then 500
  else if shouldIgnoreError e cfg then codeIfIgnoringError
  else match e.statusCode with
       | some c => if c = 0 then 404 else c
       | none => 404

/-- Model of the JSON.stringify(err, null, "  ") serialization of the error
object written by prepareErrorResponse (src/server.ts line 138).  The exact
layout is immaterial; what matters is that it serializes the error object and
is never the empty string. -/
def jsonStringify (e : S3Error) : String :=
  "\x7b \"Code\": "
    ++ (match e.Code with
        | some c => "\"" ++ c ++ "\""
        | none => "null")
    ++ ", \"retryable\": " ++ (if e.retryable then "true" else "false")
    ++ ", \"statusCode\": "
    ++ (match e.statusCode with
        | some n => toString n
        | none => "null")
    ++ " \x7d"

/-- Response body: Node res.end() with no argument produces an empty body;
string and Buffer bodies are distinguished. -/
inductive RBody
  | empty
  | str (s : String)
  | bytes (bs : List Nat)
deriving Repr, DecidableEq

/-- The observable parts of one HTTP response.  exitsProcess records that
sendResponse (src/server.ts lines 97-100) calls process.exit() after flushing
a 500 response, or that shutdown() exits; the recorded number is the process
exit code.  process.exit() is called with no argument and process.exitCode is
never assigned on the request-serving path (src/index.ts sets it only for
startup failure and uncaught exceptions), so the Node default applies and the
exit code is 0. -/
structure HttpResponse where
  status : Nat := 200
  body : RBody := .empty
  contentType : Option String := none
  fromCache : Bool := false
  isBlockedGccDepfile : Bool := false
  exitsProcess : Option Nat := none
deriving Repr, DecidableEq

/-- src/server.ts lines 130-139 (prepareErrorResponse) combined with the
500-exit check of sendResponse (lines 97-100). -/
def errorResponse (cfg : Config) (e : S3Error) (codeIfIgnoringError : Nat) :
    HttpResponse :=
  { status := getHttpResponseStatusCode e codeIfIgnoringError cfg
    body := .str (jsonStringify e)
    contentType := some "application/json"
    exitsProcess :=
      if getHttpResponseStatusCode e codeIfIgnoringError cfg = 500 then some 0
      else none }

/-- The remote-store calls the router can issue. -/
inductive S3Op
  | getObject (key : String)
  | headObject (key : String)
  | deleteObject (key : String)
  | uploadObject (key : String)
deriving Repr, DecidableEq

/-- Association-list lookup by key (first match). -/
def lookupKey {α : Type} (k : String) : List (String × α) → Option α
  | [] => none
  | p :: rest => if p.1 = k then some p.2 else lookupKey k rest

/-- Remove the first entry with the given key. -/
def eraseKey {α : Type} (k : String) : List (String × α) → List (String × α)
  | [] => []
  | p :: rest => if p.1 = k then rest else p :: eraseKey k rest

/-- Modelled from the spec: src/memorycache.ts (the Cache class imported by
src/server.ts line 12) is not part of the snapshot.  Section 4.1 of the spec
describes a key-to-bytes map with LRU eviction; we represent it as a list of
entries in recency order, most recently used first. -/
abbrev MemCache := List (String × List Nat)

/-- Modelled from the spec: Cache.contains, a query on the key map. -/
def cacheContains (k : String) (c : MemCache) : Bool := (lookupKey k c).isSome

/-- Modelled from the spec: Cache.get returns the entry bytes if present. -/
def cacheGet (k : String) (c : MemCache) : Option (List Nat) := lookupKey k c

/-- Modelled from the spec: the recency update performed by contains/get
moves the entry to the most-recently-used position. -/
def cacheTouch (k : String) (c : MemCache) : MemCache :=
  match lookupKey k c with
  | some v => (k, v) :: eraseKey k c
  | none => c

/-- Total resident bytes of the memory cache. -/
def cacheTotalBytes (c : MemCache) : Nat := (c.map (fun p => p.2.length)).sum

/-- Modelled from the spec: evict least-recently-used entries until the total
fits under the bound.  The argument list is in LRU-first order. -/
def evictLRUrev (maxTotal : Nat) : MemCache → MemCache
  | [] => []
  | e :: rest =>
      if cacheTotalBytes (e :: rest) ≤ maxTotal then e :: rest
      else evictLRUrev maxTotal rest

/-- Modelled from the spec: Cache.maybeAdd admits an entry when it is within
the per-entry cap and not larger than the whole cache; admission evicts LRU
entries until the new entry fits, then inserts it most-recently-used. -/
def cacheMaybeAdd (cfg : Config) (k : String) (v : List Nat) (c : MemCache) :
    MemCache :=
  if v.length ≤ cfg.cacheMaxEntrySizeBytes ∧ v.length ≤ cfg.cacheMaxTotalBytes then
    (k, v) ::
      (evictLRUrev (cfg.cacheMaxTotalBytes - v.length) (eraseKey k c).reverse).reverse
  else c

/-- Modelled from the spec: Cache.delete removes the entry if present. -/
def cacheDelete (k : String) (c : MemCache) : MemCache := eraseKey k c

/-- Does the pattern occur as the leading run of the list? -/
def leadsWith : List Nat → List Nat → Bool
  | [], _ => true
  | _ :: _, [] => false
  | a :: as, b :: bs => a == b && leadsWith as bs

/-- Does the pattern occur anywhere in the list (Buffer.indexOf(pat) >= 0)? -/
def occursIn (pat : List Nat) : List Nat → Bool
  | [] => leadsWith pat []
  | b :: rest => leadsWith pat (b :: rest) || occursIn pat rest

/-- The literal five bytes ".o: \" searched for by src/server.ts line 202:
dot, letter o, colon, space, backslash. -/
def depfileMarker : List Nat := [46, 111, 58, 32, 92]

/-- src/server.ts lines 201-203: isGccDepfile. -/
def isGccDepfile (body : List Nat) : Bool :=
  body.length ≤ 100000 && occursIn depfileMarker body

/-- The mutable state captured by the startServer closure (src/server.ts
lines 145-151) plus the on-disk spool directory and the set of in-flight
background uploads.  spool lists the keys whose spool file currently exists;
inflight lists the key and size of every upload that has been launched and
has not yet run its terminal continuation; dead records that the process has
exited (no further events are processed). -/
structure ServerState where
  cache : MemCache
  awsErrors : Nat
  awsPaused : Bool
  pauseTimerMs : Option Nat
  pendingUploadBytes : Int
  spool : List String
  inflight : List (String × Nat)
  dead : Bool
deriving Repr, DecidableEq

/-- State at server start: the spool directory is purged on startup
(src/server.ts line 207) and all counters are zero. -/
def initialState : ServerState :=
  { cache := [], awsErrors := 0, awsPaused := false, pauseTimerMs := none
    pendingUploadBytes := 0, spool := [], inflight := [], dead := false }

/-- Result of processing one request or one upload completion: the next
state, the response written (none while a synchronous-mode upload is still
pending), and the remote-store calls issued. -/
structure StepResult where
  st : ServerState
  resp : Option HttpResponse
  calls : List S3Op
deriving Repr, DecidableEq

/-- src/server.ts lines 153-169: onAWSError.  The JS condition
(!isExpiredTokenError(s3error) && ++awsErrors >= config.errorsBeforePausing)
short-circuits, so an expired-token error is never counted; any other error
increments the counter, and when the incremented counter reaches the
threshold the breaker opens and the unpause timer is scheduled for
pauseMinutes * 60 * 1000 milliseconds. -/
def onAWSError (cfg : Config) (st : ServerState) (e : S3Error) : ServerState :=
  if isExpiredTokenError e then st
  else if st.awsErrors + 1 ≥ cfg.errorsBeforePausing then
    { st with awsErrors := st.awsErrors + 1, awsPaused := true
              pauseTimerMs := some (cfg.pauseMinutes * 60 * 1000) }
  else { st with awsErrors := st.awsErrors + 1 }

/-- src/server.ts lines 171-173: onAWSSuccess. -/
def onAWSSuccess (st : ServerState) : ServerState := { st with awsErrors := 0 }

/-- The unpause timer callback, src/server.ts lines 161-166. -/
def firePauseTimer (st : ServerState) : ServerState :=
  { st with awsPaused := false, awsErrors := 0, pauseTimerMs := none }

/-- Outcome of the s3.getObject promise. -/
inductive GetOutcome
  | ok (body : List Nat)
  | err (e : S3Error)
deriving Repr, DecidableEq

/-- src/server.ts lines 231-292: the GET handler.  "ping" and "shutdown" are
the two reserved keys; a cache hit is served before the breaker is consulted;
on a remote fetch the depfile filter runs before cache admission; a NoSuchKey
rejection counts as success against the breaker; a 500 response makes
sendResponse exit the process (exit code 0, process.exitCode being unset). -/
def handleGet (cfg : Config) (st : ServerState) (key : String)
    (out : GetOutcome) : StepResult :=
  if key = "ping" then
    ⟨st, some { status := 200, body := .str "pong" }, []⟩
  else if key = "shutdown" then
    ⟨{ st with spool := [], dead := true },
      some { status := 200, body := .str "shutting down", exitsProcess := some 0 },
      []⟩
  else if cacheContains key st.cache then
    ⟨{ st with cache := cacheTouch key (cacheTouch key st.cache) },
      some { status := 200, body := .bytes ((cacheGet key st.cache).getD [])
             fromCache := true },
      []⟩
  else if st.awsPaused then
    ⟨st, some { status := 404, body := .empty }, []⟩
  else
    match out with
    | .ok body =>
        if cfg.allowGccDepfiles = false ∧ isGccDepfile body = true then
          ⟨onAWSSuccess st,
            some { status := 404, body := .empty, isBlockedGccDepfile := true },
            [S3Op.getObject key]⟩
        else
          ⟨onAWSSuccess { st with cache := cacheMaybeAdd cfg key body st.cache },
            some { status := 200, body := .bytes body },
            [S3Op.getObject key]⟩
    | .err e =>
        if (errorResponse cfg e 404).status = 500 then
          ⟨{ (if e.Code = some "NoSuchKey" then onAWSSuccess st
              else onAWSError cfg st e) with dead := true },
            some (errorResponse cfg e 404), [S3Op.getObject key]⟩
        else
          ⟨(if e.Code = some "NoSuchKey" then onAWSSuccess st
            else onAWSError cfg st e),
            some (errorResponse cfg e 404), [S3Op.getObject key]⟩

/-- src/server.ts lines 294-385: the PUT handler up to and including the
launch of the background upload.  stat = none embeds the fs.statSync throw of
lines 310-317 (log, respond with the unchanged default status 200 and empty
body, keep the spool file); otherwise stat carries the spooled size.  The
reject branches (breaker open, entry too large, pending-upload budget
exceeded) respond 200 and unlink the spool file they just wrote, which nets
to an unchanged spool list here.  The admit branch increments
pendingUploadBytes by the size before the upload is launched. -/
def handlePutSized (cfg : Config) (st : ServerState) (key : String)
    (size : Nat) : StepResult :=
  if st.awsPaused then
    ⟨st, some { status := 200, body := .empty }, []⟩
  else if cfg.maxEntrySizeBytes ≠ 0 ∧ size > cfg.maxEntrySizeBytes then
    ⟨st, some { status := 200, body := .empty }, []⟩
  else if st.pendingUploadBytes + (size : Int) >
      (cfg.maxPendingUploadMB : Int) * 1024 * 1024 then
    ⟨st, some { status := 200, body := .empty }, []⟩
  else
    ⟨{ st with spool := key :: st.spool
               pendingUploadBytes := st.pendingUploadBytes + (size : Int)
               inflight := (key, size) :: st.inflight },
      if cfg.asyncUploadEnabled then
        some { status := 200, body := .empty }
      else none,
      [S3Op.uploadObject key]⟩

def handlePut (cfg : Config) (st : ServerState) (key : String)
    (stat : Option Nat) : StepResult :=
  if key = "" then
    ⟨st, some { status := 403, body := .empty }, []⟩
  else if key ∈ st.spool then
    ⟨st, some { status := 200, body := .empty }, []⟩
  else
    match stat with
    | none =>
        ⟨{ st with spool := key :: st.spool },
          some { status := 200, body := .empty }, []⟩
    | some size => handlePutSized cfg st key size

/-- src/server.ts lines 350-371: the terminal continuations of a launched
upload.  err = none is the fulfilled promise; in synchronous mode it answers
the request with 200.  A rejection reports onAWSError and, in synchronous
mode, answers with prepareErrorResponse using 200 as the status when the
error is ignorable; if that response is a 500, sendResponse exits the process
before the final continuation, so the decrement and the unlink never run.
In every other case the final continuation decrements pendingUploadBytes by
the staged size and unlinks the spool file. -/
def completeUploadErr (cfg : Config) (st : ServerState) (key : String)
    (size : Nat) (e : S3Error) : StepResult :=
  if cfg.asyncUploadEnabled = false ∧ (errorResponse cfg e 200).status = 500 then
    ⟨{ onAWSError cfg st e with dead := true },
      some (errorResponse cfg e 200), []⟩
  else
    ⟨{ onAWSError cfg st e with
         pendingUploadBytes := st.pendingUploadBytes - (size : Int)
         inflight := eraseKey key st.inflight
         spool := st.spool.erase key },
      if cfg.asyncUploadEnabled then none
      else some (errorResponse cfg e 200),
      []⟩

def completeUploadSized (cfg : Config) (st : ServerState) (key : String)
    (size : Nat) (err : Option S3Error) : StepResult :=
  match err with
  | none =>
      ⟨{ onAWSSuccess st with
           pendingUploadBytes := st.pendingUploadBytes - (size : Int)
           inflight := eraseKey key st.inflight
           spool := st.spool.erase key },
        if cfg.asyncUploadEnabled then none
        else some { status := 200, body := .empty },
        []⟩
  | some e => completeUploadErr cfg st key size e

def completeUpload (cfg : Config) (st : ServerState) (key : String)
    (err : Option S3Error) : StepResult :=
  match lookupKey key st.inflight with
  | none => ⟨st, none, []⟩
  | some size => completeUploadSized cfg st key size err

/-- src/server.ts lines 387-416: the HEAD handler. -/
def handleHead (cfg : Config) (st : ServerState) (key : String)
    (out : Option S3Error) : StepResult :=
  if cacheContains key st.cache then
    ⟨{ st with cache := cacheTouch key st.cache },
      some { status := 200, body := .empty, fromCache := true }, []⟩
  else if st.awsPaused then
    ⟨st, some { status := 404, body := .empty }, []⟩
  else
    match out with
    | none =>
        ⟨onAWSSuccess st, some { status := 200, body := .empty },
          [S3Op.headObject key]⟩
    | some e =>
        if (errorResponse cfg e 404).status = 500 then
          ⟨{ onAWSError cfg st e with dead := true },
            some (errorResponse cfg e 404), [S3Op.headObject key]⟩
        else
          ⟨onAWSError cfg st e, some (errorResponse cfg e 404),
            [S3Op.headObject key]⟩

/-- src/server.ts lines 418-440: the DELETE handler.  The memory cache is
always evicted, and the remote delete is always issued: there is no
awsPaused short-circuit in this handler. -/
def handleDelete (cfg : Config) (st : ServerState) (key : String)
    (out : Option S3Error) : StepResult :=
  match out with
  | none =>
      ⟨onAWSSuccess { st with cache := cacheDelete key st.cache },
        some { status := 200, body := .empty }, [S3Op.deleteObject key]⟩
  | some e =>
      if (errorResponse cfg e 404).status = 500 then
        ⟨{ onAWSError cfg { st with cache := cacheDelete key st.cache } e with
             dead := true },
          some (errorResponse cfg e 404), [S3Op.deleteObject key]⟩
      else
        ⟨onAWSError cfg { st with cache := cacheDelete key st.cache } e,
          some (errorResponse cfg e 404), [S3Op.deleteObject key]⟩

/-- One event of the single-threaded event loop: a request arriving together
with the outcome its remote call would have, the terminal continuation of a
launched upload, or the breaker unpause timer firing. -/
inductive Ev
  | reqGet (key : String) (out : GetOutcome)
  | reqHead (key : String) (out : Option S3Error)
  | reqDel (key : String) (out : Option S3Error)
  | reqPut (key : String) (stat : Option Nat)
  | donePut (key : String) (err : Option S3Error)
  | timerFire
deriving Repr, DecidableEq

/-- State transition of the event loop.  Once the process has exited no
further event is processed. -/
def step (cfg : Config) (st : ServerState) (e : Ev) : ServerState :=
  if st.dead then st
  else
    match e with
    | .reqGet k out => (handleGet cfg st k out).st
    | .reqHead k out => (handleHead cfg st k out).st
    | .reqDel k out => (handleDelete cfg st k out).st
    | .reqPut k stat => (handlePut cfg st k stat).st
    | .donePut k err => (completeUpload cfg st k err).st
    | .timerFire => firePauseTimer st

/-- Run the event loop over a list of events. -/
def run (cfg : Config) (st : ServerState) (evs : List Ev) : ServerState :=
  evs.foldl (step cfg) st

/-- Status of the written response, if one was written. -/
def respStatus (r : StepResult) : Option Nat := r.resp.map HttpResponse.status

/-- Exit behaviour of the written response, if one was written. -/
def respExit (r : StepResult) : Option (Option Nat) :=
  r.resp.map HttpResponse.exitsProcess

/-- Total bytes of the uploads currently in flight. -/
def inflightBytes (l : List (String × Nat)) : Nat := (l.map Prod.snd).sum

/-- The pending-upload accounting invariant of spec section 4.2: the byte
counter equals the sum of the sizes of the uploads in flight, there is at
most one in-flight upload per key, and every in-flight upload still has its
spool file. -/
def pendingInv (st : ServerState) : Prop :=
  st.pendingUploadBytes = (inflightBytes st.inflight : Int) ∧
  (st.inflight.map Prod.fst).Nodup ∧
  ∀ p ∈ st.inflight, p.1 ∈ st.spool

instance (st : ServerState) : Decidable (pendingInv st) := by
  unfold pendingInv; infer_instance

/-- A key whose spool file exists but which has no staging in progress and no
upload in flight: the situation left behind by a stat failure. -/
def keyStuck (k : String) (st : ServerState) : Prop :=
  k ∈ st.spool ∧ k ∉ st.inflight.map Prod.fst

instance (k : String) (st : ServerState) : Decidable (keyStuck k st) := by
  unfold keyStuck; infer_instance

/-- Baseline fixture: synchronous uploads, depfiles allowed, no entry cap,
10 MB pending-upload budget, breaker threshold 3, ample cache capacity. -/
def cfgSync : Config :=
  { allowOffline := false, allowGccDepfiles := true, maxEntrySizeBytes := 0
    asyncUploadEnabled := false, maxPendingUploadMB := 10
    errorsBeforePausing := 3, pauseMinutes := 1
    cacheMaxEntrySizeBytes := 1000000, cacheMaxTotalBytes := 1000000 }

/-- Fixture with the depfile filter active. -/
def cfgNoDep : Config := { cfgSync with allowGccDepfiles := false }

/-- Fixture with offline downgrading enabled. -/
def cfgOffline : Config := { cfgSync with allowOffline := true }

/-- Fixture whose breaker opens after a single error. -/
def cfgBrk : Config := { cfgSync with errorsBeforePausing := 1 }

/-- Fixture state with the circuit breaker open. -/
def stPaused : ServerState := { initialState with awsPaused := true }

/-- A credential-expiry rejection. -/
def errExpired : S3Error := { Code := some "ExpiredToken" }

/-- A transient error flagged retryable. -/
def errRetryable : S3Error := { retryable := true }

/-- A non-retryable, non-expiry remote error. -/
def errPlain : S3Error := { Code := some "SomeError" }

/-- A ten-byte remote body that starts with the depfile marker. -/
def bodyDep : List Nat := [46, 111, 58, 32, 92, 10, 97, 46, 111, 58]

/-- Fixture state with one three-byte upload in flight for key "k". -/
def stInf : ServerState :=
  { initialState with inflight := [("k", 3)], spool := ["k"],
                      pendingUploadBytes := 3 }

/-- Fixture event trace: two PUTs admitted, then the first upload
completes. -/
def evs8 : List Ev :=
  [.reqPut "a" (some 5), .reqPut "b" (some 7), .donePut "a" none]

/-- Fixture event trace run after a stat failure for key "k": an unrelated
GET, a duplicate PUT for "k", and a stray completion event for "k". -/
def evs9 : List Ev :=
  [.reqGet "x" (.ok [1]), .reqPut "k" (some 9), .donePut "k" none]

@[simp] theorem onAWSSuccess_cache (st : ServerState) :
    (onAWSSuccess st).cache = st.cache := rfl

@[simp] theorem onAWSSuccess_spool (st : ServerState) :
    (onAWSSuccess st).spool = st.spool := rfl

@[simp] theorem onAWSSuccess_inflight (st : ServerState) :
    (onAWSSuccess st).inflight = st.inflight := rfl

@[simp] theorem onAWSSuccess_pending (st : ServerState) :
    (onAWSSuccess st).pendingUploadBytes = st.pendingUploadBytes := rfl

@[simp] theorem onAWSSuccess_dead (st : ServerState) :
    (onAWSSuccess st).dead = st.dead := rfl

@[simp] theorem onAWSSuccess_awsErrors (st : ServerState) :
    (onAWSSuccess st).awsErrors = 0 := rfl

@[simp] theorem onAWSError_cache (cfg : Config) (st : ServerState) (e : S3Error) :
    (onAWSError cfg st e).cache = st.cache := by
  unfold onAWSError; split_ifs <;> rfl

@[simp] theorem onAWSError_spool (cfg : Config) (st : ServerState) (e : S3Error) :
    (onAWSError cfg st e).spool = st.spool := by
  unfold onAWSError; split_ifs <;> rfl

@[simp] theorem onAWSError_inflight (cfg : Config) (st : ServerState) (e : S3Error) :
    (onAWSError cfg st e).inflight = st.inflight := by
  unfold onAWSError; split_ifs <;> rfl

@[simp] theorem onAWSError_pending (cfg : Config) (st : ServerState) (e : S3Error) :
    (onAWSError cfg st e).pendingUploadBytes = st.pendingUploadBytes := by
  unfold onAWSError; split_ifs <;> rfl

@[simp] theorem onAWSError_dead (cfg : Config) (st : ServerState) (e : S3Error) :
    (onAWSError cfg st e).dead = st.dead := by
  unfold onAWSError; split_ifs <;> rfl

@[simp] theorem firePauseTimer_cache (st : ServerState) :
    (firePauseTimer st).cache = st.cache := rfl

@[simp] theorem firePauseTimer_spool (st : ServerState) :
    (firePauseTimer st).spool = st.spool := rfl

@[simp] theorem firePauseTimer_inflight (st : ServerState) :
    (firePauseTimer st).inflight = st.inflight := rfl

@[simp] theorem firePauseTimer_pending (st : ServerState) :
    (firePauseTimer st).pendingUploadBytes = st.pendingUploadBytes := rfl

@[simp] theorem firePauseTimer_dead (st : ServerState) :
    (firePauseTimer st).dead = st.dead := rfl

theorem onAWSError_awsErrors_of_not_expired (cfg : Config) (st : ServerState)
    (e : S3Error) (h : isExpiredTokenError e = false) :
    (onAWSError cfg st e).awsErrors = st.awsErrors + 1 := by
  unfold onAWSError
  rw [h]
  split_ifs <;> simp_all

theorem onAWSError_of_expired (cfg : Config) (st : ServerState) (e : S3Error)
    (h : isExpiredTokenError e = true) : onAWSError cfg st e = st := by
  unfold onAWSError; rw [h]; rfl

theorem eraseKey_sublist {α : Type} (k : String) (l : List (String × α)) :
    List.Sublist (eraseKey k l) l := by
  induction l with
  | nil => simp [eraseKey]
  | cons p rest ih =>
      unfold eraseKey
      split
      · exact List.sublist_cons_self p rest
      · exact List.Sublist.cons₂ p ih

theorem mem_of_mem_eraseKey {α : Type} {k : String} {p : String × α}
    {l : List (String × α)} (h : p ∈ eraseKey k l) : p ∈ l :=
  (eraseKey_sublist k l).subset h

theorem lookupKey_mem_fst {α : Type} {k : String} {l : List (String × α)}
    {v : α} (h : lookupKey k l = some v) : k ∈ l.map Prod.fst := by
  induction l with
  | nil => simp [lookupKey] at h
  | cons p rest ih =>
      unfold lookupKey at h
      by_cases hp : p.1 = k
      · simp [hp]
      · rw [if_neg hp] at h
        exact List.mem_cons_of_mem _ (ih h)

theorem lookupKey_eq_none_of_not_mem {α : Type} {k : String}
    {l : List (String × α)} (h : k ∉ l.map Prod.fst) : lookupKey k l = none := by
  induction l with
  | nil => rfl
  | cons p rest ih =>
      unfold lookupKey
      rw [if_neg, ih]
      · intro hm; exact h (List.mem_cons_of_mem _ hm)
      · intro he; exact h (by simp [he])

theorem fst_ne_of_mem_eraseKey {α : Type} {k : String} {l : List (String × α)}
    (hnd : (l.map Prod.fst).Nodup) {p : String × α} (hp : p ∈ eraseKey k l) :
    p.1 ≠ k := by
  induction l with
  | nil => simp [eraseKey] at hp
  | cons q rest ih =>
      unfold eraseKey at hp
      rw [List.map_cons, List.nodup_cons] at hnd
      by_cases hq : q.1 = k
      · rw [if_pos hq] at hp
        intro he
        exact hnd.1 (hq ▸ he ▸ List.mem_map_of_mem Prod.fst hp)
      · rw [if_neg hq] at hp
        rcases List.mem_cons.mp hp with h | h
        · rw [h]; exact hq
        · exact ih hnd.2 h

theorem inflightBytes_eraseKey {k : String} {l : List (String × Nat)} {s : Nat}
    (hl : lookupKey k l = some s) :
    inflightBytes (eraseKey k l) + s = inflightBytes l := by
  induction l with
  | nil => simp [lookupKey] at hl
  | cons p rest ih =>
      unfold lookupKey at hl
      unfold eraseKey
      by_cases hp : p.1 = k
      · rw [if_pos hp] at hl
        rw [if_pos hp]
        have : p.2 = s := by injection hl
        simp [inflightBytes, this, Nat.add_comm]
      · rw [if_neg hp] at hl
        rw [if_neg hp]
        have := ih hl
        simp [inflightBytes] at this ⊢
        omega

theorem cacheMaybeAdd_get (cfg : Config) (k : String) (v : List Nat)
    (c : MemCache) (h1 : v.length ≤ cfg.cacheMaxEntrySizeBytes)
    (h2 : v.length ≤ cfg.cacheMaxTotalBytes) :
    cacheGet k (cacheMaybeAdd cfg k v c) = some v := by
  unfold cacheMaybeAdd
  rw [if_pos ⟨h1, h2⟩]
  simp [cacheGet, lookupKey]

theorem cacheContains_maybeAdd (cfg : Config) (k : String) (v : List Nat)
    (c : MemCache) (h1 : v.length ≤ cfg.cacheMaxEntrySizeBytes)
    (h2 : v.length ≤ cfg.cacheMaxTotalBytes) :
    cacheContains k (cacheMaybeAdd cfg k v c) = true := by
  have h := cacheMaybeAdd_get cfg k v c h1 h2
  unfold cacheGet at h
  unfold cacheContains
  rw [h]
  rfl

@[simp] theorem step_reqGet (cfg : Config) (st : ServerState) (k : String)
    (out : GetOutcome) (h : st.dead = false) :
    step cfg st (.reqGet k out) = (handleGet cfg st k out).st := by
  simp [step, h]

@[simp] theorem step_reqHead (cfg : Config) (st : ServerState) (k : String)
    (out : Option S3Error) (h : st.dead = false) :
    step cfg st (.reqHead k out) = (handleHead cfg st k out).st := by
  simp [step, h]

@[simp] theorem step_reqDel (cfg : Config) (st : ServerState) (k : String)
    (out : Option S3Error) (h : st.dead = false) :
    step cfg st (.reqDel k out) = (handleDelete cfg st k out).st := by
  simp [step, h]

@[simp] theorem step_reqPut (cfg : Config) (st : ServerState) (k : String)
    (stat : Option Nat) (h : st.dead = false) :
    step cfg st (.reqPut k stat) = (handlePut cfg st k stat).st := by
  simp [step, h]

@[simp] theorem step_donePut (cfg : Config) (st : ServerState) (k : String)
    (err : Option S3Error) (h : st.dead = false) :
    step cfg st (.donePut k err) = (completeUpload cfg st k err).st := by
  simp [step, h]

@[simp] theorem step_timerFire (cfg : Config) (st : ServerState)
    (h : st.dead = false) : step cfg st .timerFire = firePauseTimer st := by
  simp [step, h]

theorem step_of_dead (cfg : Config) (st : ServerState) (e : Ev)
    (h : st.dead = true) : step cfg st e = st := by
  simp [step, h]

theorem run_nil (cfg : Config) (st : ServerState) : run cfg st [] = st := rfl

theorem run_cons (cfg : Config) (st : ServerState) (e : Ev) (evs : List Ev) :
    run cfg st (e :: evs) = run cfg (step cfg st e) evs := rfl

theorem run_of_dead (cfg : Config) (st : ServerState) (evs : List Ev)
    (h : st.dead = true) : run cfg st evs = st := by
  induction evs with
  | nil => rfl
  | cons e evs ih => rw [run_cons, step_of_dead cfg st e h]; exact ih

theorem pendingInv_of_fields (a b : ServerState)
    (h1 : a.pendingUploadBytes = b.pendingUploadBytes)
    (h2 : a.inflight = b.inflight) (h3 : a.spool = b.spool)
    (h : pendingInv b) : pendingInv a := by
  unfold pendingInv at *
  rw [h1, h2, h3]
  exact h

theorem handleGet_preserves (cfg : Config) (st : ServerState) (key : String)
    (out : GetOutcome) (hd : (handleGet cfg st key out).st.dead = false) :
    (handleGet cfg st key out).st.spool = st.spool ∧
    (handleGet cfg st key out).st.inflight = st.inflight ∧
    (handleGet cfg st key out).st.pendingUploadBytes = st.pendingUploadBytes := by
  revert hd
  unfold handleGet
  rcases out with body | e
  · by_cases h1 : key = "ping" <;> by_cases h2 : key = "shutdown" <;>
      by_cases h3 : cacheContains key st.cache = true <;>
        by_cases h4 : st.awsPaused = true <;>
          by_cases hb : cfg.allowGccDepfiles = false ∧ isGccDepfile body = true <;>
            simp [h1, h2, h3, h4, hb]
  · by_cases h1 : key = "ping" <;> by_cases h2 : key = "shutdown" <;>
      by_cases h3 : cacheContains key st.cache = true <;>
        by_cases h4 : st.awsPaused = true <;>
          by_cases h5 : (errorResponse cfg e 404).status = 500 <;>
            by_cases h6 : e.Code = some "NoSuchKey" <;>
              simp [h1, h2, h3, h4, h5, h6]

theorem handleHead_preserves (cfg : Config) (st : ServerState) (key : String)
    (out : Option S3Error) (hd : (handleHead cfg st key out).st.dead = false) :
    (handleHead cfg st key out).st.spool = st.spool ∧
    (handleHead cfg st key out).st.inflight = st.inflight ∧
    (handleHead cfg st key out).st.pendingUploadBytes = st.pendingUploadBytes := by
  revert hd
  unfold handleHead
  rcases out with _ | e
  · by_cases h3 : cacheContains key st.cache = true <;>
      by_cases h4 : st.awsPaused = true <;> simp [h3, h4]
  · by_cases h3 : cacheContains key st.cache = true <;>
      by_cases h4 : st.awsPaused = true <;>
        by_cases h5 : (errorResponse cfg e 404).status = 500 <;>
          simp [h3, h4, h5]

theorem handleDelete_preserves (cfg : Config) (st : ServerState) (key : String)
    (out : Option S3Error) (hd : (handleDelete cfg st key out).st.dead = false) :
    (handleDelete cfg st key out).st.spool = st.spool ∧
    (handleDelete cfg st key out).st.inflight = st.inflight ∧
    (handleDelete cfg st key out).st.pendingUploadBytes = st.pendingUploadBytes := by
  revert hd
  unfold handleDelete
  rcases out with _ | e
  · simp
  · by_cases h5 : (errorResponse cfg e 404).status = 500 <;> simp [h5]

theorem pendingInv_spoolGrow (st : ServerState) (k : String) (h : pendingInv st) :
    pendingInv { st with spool := k :: st.spool } := by
  obtain ⟨hsum, hnd, hmem⟩ := h
  unfold pendingInv
  exact ⟨hsum, hnd, fun p hp => List.mem_cons_of_mem _ (hmem p hp)⟩

theorem pendingInv_launch (st : ServerState) (k : String) (size : Nat)
    (hsp : k ∉ st.spool) (h : pendingInv st) :
    pendingInv { st with spool := k :: st.spool,
                         pendingUploadBytes := st.pendingUploadBytes + (size : Int),
                         inflight := (k, size) :: st.inflight } := by
  obtain ⟨hsum, hnd, hmem⟩ := h
  unfold pendingInv
  refine ⟨?_, ?_, ?_⟩
  · show st.pendingUploadBytes + (size : Int) =
      (inflightBytes ((k, size) :: st.inflight) : Int)
    rw [hsum]
    unfold inflightBytes
    rw [List.map_cons, List.sum_cons]
    push_cast
    ring
  · show (((k, size) :: st.inflight).map Prod.fst).Nodup
    rw [List.map_cons, List.nodup_cons]
    refine ⟨?_, hnd⟩
    show k ∉ st.inflight.map Prod.fst
    intro hkmem
    rcases List.mem_map.mp hkmem with ⟨p, hp, hpk⟩
    exact hsp (hpk ▸ hmem p hp)
  · intro p hp
    rcases List.mem_cons.mp hp with h1 | h1
    · rw [h1]; exact List.mem_cons_self k st.spool
    · exact List.mem_cons_of_mem _ (hmem p h1)

theorem pendingInv_complete (st : ServerState) (k : String) (size : Nat)
    (hl : lookupKey k st.inflight = some size) (h : pendingInv st) :
    pendingInv { st with pendingUploadBytes := st.pendingUploadBytes - (size : Int),
                         inflight := eraseKey k st.inflight,
                         spool := st.spool.erase k } := by
  obtain ⟨hsum, hnd, hmem⟩ := h
  unfold pendingInv
  refine ⟨?_, ?_, ?_⟩
  · show st.pendingUploadBytes - (size : Int) =
      (inflightBytes (eraseKey k st.inflight) : Int)
    have hb := inflightBytes_eraseKey hl
    rw [hsum]
    omega
  · show ((eraseKey k st.inflight).map Prod.fst).Nodup
    exact List.Nodup.sublist ((eraseKey_sublist k st.inflight).map Prod.fst) hnd
  · intro p hp
    have hpl := mem_of_mem_eraseKey hp
    have hne := fst_ne_of_mem_eraseKey hnd hp
    exact (List.mem_erase_of_ne hne).mpr (hmem p hpl)

theorem pendingInv_handlePut (cfg : Config) (st : ServerState) (k : String)
    (stat : Option Nat) (h : pendingInv st) :
    pendingInv (handlePut cfg st k stat).st := by
  unfold handlePut
  by_cases hk : k = ""
  · rw [if_pos hk]; exact h
  rw [if_neg hk]
  by_cases hsp : k ∈ st.spool
  · rw [if_pos hsp]; exact h
  rw [if_neg hsp]
  rcases stat with _ | size
  · exact pendingInv_spoolGrow st k h
  show pendingInv (handlePutSized cfg st k size).st
  unfold handlePutSized
  split_ifs with hp1 hp2 hp3 hp4
  · exact h
  · exact h
  · exact h
  · exact pendingInv_launch st k size hsp h
  · exact pendingInv_launch st k size hsp h

theorem pendingInv_completeUpload (cfg : Config) (st : ServerState) (k : String)
    (err : Option S3Error) (h : pendingInv st)
    (hd : (completeUpload cfg st k err).st.dead = false) :
    pendingInv (completeUpload cfg st k err).st := by
  unfold completeUpload at hd ⊢
  revert hd
  rcases hl : lookupKey k st.inflight with _ | size
  · intro hd
    exact h
  rcases err with _ | e
  · intro hd
    refine pendingInv_of_fields _ _ ?_ ?_ ?_ (pendingInv_complete st k size hl h) <;> rfl
  intro hd
  show pendingInv (completeUploadErr cfg st k size e).st
  change (completeUploadErr cfg st k size e).st.dead = false at hd
  unfold completeUploadErr at hd ⊢
  by_cases h5 : cfg.asyncUploadEnabled = false ∧ (errorResponse cfg e 200).status = 500
  · rw [if_pos h5] at hd
    simp at hd
  · rw [if_neg h5]
    refine pendingInv_of_fields _ _ ?_ ?_ ?_ (pendingInv_complete st k size hl h) <;> rfl

theorem pendingInv_step (cfg : Config) (st : ServerState) (e : Ev)
    (h : pendingInv st) (hd : (step cfg st e).dead = false) :
    pendingInv (step cfg st e) := by
  by_cases hdead : st.dead = true
  · rw [step_of_dead cfg st e hdead] at hd ⊢; exact h
  rw [Bool.not_eq_true] at hdead
  rcases e with ⟨k, out⟩ | ⟨k, out⟩ | ⟨k, out⟩ | ⟨k, stat⟩ | ⟨k, err⟩ | _
  · rw [step_reqGet cfg st k out hdead] at hd ⊢
    obtain ⟨e1, e2, e3⟩ := handleGet_preserves cfg st k out hd
    exact pendingInv_of_fields _ _ e3 e2 e1 h
  · rw [step_reqHead cfg st k out hdead] at hd ⊢
    obtain ⟨e1, e2, e3⟩ := handleHead_preserves cfg st k out hd
    exact pendingInv_of_fields _ _ e3 e2 e1 h
  · rw [step_reqDel cfg st k out hdead] at hd ⊢
    obtain ⟨e1, e2, e3⟩ := handleDelete_preserves cfg st k out hd
    exact pendingInv_of_fields _ _ e3 e2 e1 h
  · rw [step_reqPut cfg st k stat hdead]
    exact pendingInv_handlePut cfg st k stat h
  · rw [step_donePut cfg st k err hdead] at hd ⊢
    exact pendingInv_completeUpload cfg st k err h hd
  · rw [step_timerFire cfg st hdead]
    exact pendingInv_of_fields _ _ rfl rfl rfl h

theorem pendingInv_run (cfg : Config) (st : ServerState) (evs : List Ev)
    (h : pendingInv st) (hd : (run cfg st evs).dead = false) :
    pendingInv (run cfg st evs) := by
  induction evs generalizing st with
  | nil => exact h
  | cons e evs ih =>
      rw [run_cons] at hd ⊢
      by_cases hstep : (step cfg st e).dead = true
      · rw [run_of_dead cfg _ evs hstep] at hd
        rw [hstep] at hd
        simp at hd
      · rw [Bool.not_eq_true] at hstep
        exact ih (step cfg st e) (pendingInv_step cfg st e h hstep) hd

theorem keyStuck_of_fields (a b : ServerState) (h2 : a.inflight = b.inflight)
    (h3 : a.spool = b.spool) (k : String) (h : keyStuck k b) : keyStuck k a := by
  unfold keyStuck at *
  rw [h2, h3]
  exact h

theorem keyStuck_launch (st : ServerState) (k2 : String) (size : Nat)
    (k : String) (hsp : k2 ∉ st.spool) (h1 : k ∈ st.spool)
    (h2 : k ∉ st.inflight.map Prod.fst) :
    keyStuck k { st with spool := k2 :: st.spool,
                         pendingUploadBytes := st.pendingUploadBytes + (size : Int),
                         inflight := (k2, size) :: st.inflight } := by
  have hne : k2 ≠ k := fun he => hsp (he ▸ h1)
  unfold keyStuck
  refine ⟨List.mem_cons_of_mem _ h1, ?_⟩
  show k ∉ ((k2, size) :: st.inflight).map Prod.fst
  rw [List.map_cons]
  intro hm
  rcases List.mem_cons.mp hm with hc | hc
  · exact hne hc.symm
  · exact h2 hc

theorem keyStuck_handlePut (cfg : Config) (st : ServerState) (k2 : String)
    (stat : Option Nat) (k : String) (hk : keyStuck k st) :
    keyStuck k (handlePut cfg st k2 stat).st := by
  obtain ⟨h1, h2⟩ := hk
  unfold handlePut
  by_cases hk2 : k2 = ""
  · rw [if_pos hk2]; exact ⟨h1, h2⟩
  rw [if_neg hk2]
  by_cases hsp : k2 ∈ st.spool
  · rw [if_pos hsp]; exact ⟨h1, h2⟩
  rw [if_neg hsp]
  rcases stat with _ | size
  · exact ⟨List.mem_cons_of_mem _ h1, h2⟩
  show keyStuck k (handlePutSized cfg st k2 size).st
  unfold handlePutSized
  split_ifs with hp1 hp2 hp3 hp4
  · exact ⟨h1, h2⟩
  · exact ⟨h1, h2⟩
  · exact ⟨h1, h2⟩
  · exact keyStuck_launch st k2 size k hsp h1 h2
  · exact keyStuck_launch st k2 size k hsp h1 h2

theorem keyStuck_completeUpload (cfg : Config) (st : ServerState) (k2 : String)
    (err : Option S3Error) (k : String) (hk : keyStuck k st)
    (hd : (completeUpload cfg st k2 err).st.dead = false) :
    keyStuck k (completeUpload cfg st k2 err).st := by
  obtain ⟨h1, h2⟩ := hk
  unfold completeUpload at hd ⊢
  revert hd
  rcases hl : lookupKey k2 st.inflight with _ | size
  · intro hd
    exact ⟨h1, h2⟩
  have hne : k ≠ k2 := fun he => h2 (he ▸ lookupKey_mem_fst hl)
  have hspool : k ∈ st.spool.erase k2 := (List.mem_erase_of_ne hne).mpr h1
  have hinf : k ∉ (eraseKey k2 st.inflight).map Prod.fst := by
    intro hm
    exact h2 (((eraseKey_sublist k2 st.inflight).map Prod.fst).subset hm)
  rcases err with _ | e
  · intro hd
    exact ⟨hspool, hinf⟩
  intro hd
  show keyStuck k (completeUploadErr cfg st k2 size e).st
  change (completeUploadErr cfg st k2 size e).st.dead = false at hd
  unfold completeUploadErr at hd ⊢
  by_cases h5 : cfg.asyncUploadEnabled = false ∧ (errorResponse cfg e 200).status = 500
  · rw [if_pos h5] at hd
    simp at hd
  · rw [if_neg h5]
    exact ⟨hspool, hinf⟩

theorem keyStuck_step (cfg : Config) (st : ServerState) (e : Ev) (k : String)
    (h : keyStuck k st) (hd : (step cfg st e).dead = false) :
    keyStuck k (step cfg st e) := by
  by_cases hdead : st.dead = true
  · rw [step_of_dead cfg st e hdead] at hd ⊢; exact h
  rw [Bool.not_eq_true] at hdead
  rcases e with ⟨k2, out⟩ | ⟨k2, out⟩ | ⟨k2, out⟩ | ⟨k2, stat⟩ | ⟨k2, err⟩ | _
  · rw [step_reqGet cfg st k2 out hdead] at hd ⊢
    obtain ⟨e1, e2, _⟩ := handleGet_preserves cfg st k2 out hd
    exact keyStuck_of_fields _ _ e2 e1 k h
  · rw [step_reqHead cfg st k2 out hdead] at hd ⊢
    obtain ⟨e1, e2, _⟩ := handleHead_preserves cfg st k2 out hd
    exact keyStuck_of_fields _ _ e2 e1 k h
  · rw [step_reqDel cfg st k2 out hdead] at hd ⊢
    obtain ⟨e1, e2, _⟩ := handleDelete_preserves cfg st k2 out hd
    exact keyStuck_of_fields _ _ e2 e1 k h
  · rw [step_reqPut cfg st k2 stat hdead]
    exact keyStuck_handlePut cfg st k2 stat k h
  · rw [step_donePut cfg st k2 err hdead] at hd ⊢
    exact keyStuck_completeUpload cfg st k2 err k h hd
  · rw [step_timerFire cfg st hdead]
    exact keyStuck_of_fields _ _ rfl rfl k h

theorem keyStuck_run (cfg : Config) (st : ServerState) (evs : List Ev)
    (k : String) (h : keyStuck k st) (hd : (run cfg st evs).dead = false) :
    keyStuck k (run cfg st evs) := by
  induction evs generalizing st with
  | nil => exact h
  | cons e evs ih =>
      rw [run_cons] at hd ⊢
      by_cases hstep : (step cfg st e).dead = true
      · rw [run_of_dead cfg _ evs hstep] at hd
        rw [hstep] at hd
        simp at hd
      · rw [Bool.not_eq_true] at hstep
        exact ih (step cfg st e) (keyStuck_step cfg st e k h hstep) hd

theorem leadsWith_iff (pat : List Nat) : ∀ l : List Nat,
    leadsWith pat l = true ↔ ∃ t, l = pat ++ t := by
  induction pat with
  | nil => intro l; simp [leadsWith]
  | cons a as ih =>
      intro l
      cases l with
      | nil => simp [leadsWith]
      | cons b bs =>
          rw [leadsWith]
          simp only [Bool.and_eq_true, beq_iff_eq]
          constructor
          · rintro ⟨rfl, h⟩
            rcases (ih bs).mp h with ⟨t, rfl⟩
            exact ⟨t, rfl⟩
          · rintro ⟨t, ht⟩
            injection ht with h1 h2
            exact ⟨h1.symm, (ih bs).mpr ⟨t, h2⟩⟩

theorem occursIn_iff (pat : List Nat) : ∀ l : List Nat,
    occursIn pat l = true ↔ ∃ s t, l = s ++ pat ++ t := by
  intro l
  induction l with
  | nil =>
      rw [occursIn, leadsWith_iff]
      constructor
      · rintro ⟨t, ht⟩
        exact ⟨[], t, ht⟩
      · rintro ⟨s, t, hst⟩
        rcases List.append_eq_nil.mp hst.symm with ⟨h1, h2⟩
        rcases List.append_eq_nil.mp h1 with ⟨rfl, rfl⟩
        exact ⟨t, hst⟩
  | cons b bs ih =>
      rw [occursIn]
      simp only [Bool.or_eq_true]
      rw [leadsWith_iff, ih]
      constructor
      · rintro (⟨t, ht⟩ | ⟨s, t, hst⟩)
        · exact ⟨[], t, ht⟩
        · exact ⟨b :: s, t, by rw [hst]; rfl⟩
      · rintro ⟨s, t, hst⟩
        cases s with
        | nil => exact Or.inl ⟨t, hst⟩
        | cons c s2 =>
            injection hst with h1 h2
            exact Or.inr ⟨s2, t, h2⟩

/-- Claim C5 (confirmed): with allowGccDepfiles=false, a body fetched from
the remote store is classified as a blocked depfile exactly when it is at
most 100000 bytes long and the five-byte sequence ".o: backslash" occurs
somewhere in it; a blocked body is never admitted to the memory cache and the
GET responds 404 with the blocked marker; a body that is not classified
passes through: it is handed to cache admission and served with 200, and
under the cache capacity bounds it is found in the cache afterwards. -/
theorem claim5_depfile_filter (cfg : Config) (st : ServerState) (key : String)
    (hgcc : cfg.allowGccDepfiles = false) (hping : key ≠ "ping")
    (hsd : key ≠ "shutdown") (hc : cacheContains key st.cache = false)
    (hp : st.awsPaused = false) :
    (∀ b : List Nat, isGccDepfile b = true ↔
        (b.length ≤ 100000 ∧ ∃ s t, b = s ++ depfileMarker ++ t)) ∧
    (∀ b, isGccDepfile b = true →
      handleGet cfg st key (.ok b) =
        ⟨onAWSSuccess st,
          some { status := 404, body := .empty, isBlockedGccDepfile := true },
          [S3Op.getObject key]⟩) ∧
    (∀ b, isGccDepfile b = false →
      (handleGet cfg st key (.ok b)).resp =
        some { status := 200, body := .bytes b } ∧
      (handleGet cfg st key (.ok b)).st.cache = cacheMaybeAdd cfg key b st.cache ∧
      (b.length ≤ cfg.cacheMaxEntrySizeBytes → b.length ≤ cfg.cacheMaxTotalBytes →
        cacheGet key (handleGet cfg st key (.ok b)).st.cache = some b)) := by
  refine ⟨?_, ?_, ?_⟩
  · intro b
    constructor
    · intro hb
      rw [isGccDepfile, Bool.and_eq_true] at hb
      exact ⟨of_decide_eq_true hb.1, (occursIn_iff depfileMarker b).mp hb.2⟩
    · rintro ⟨h1, h2⟩
      rw [isGccDepfile, Bool.and_eq_true]
      exact ⟨decide_eq_true h1, (occursIn_iff depfileMarker b).mpr h2⟩
  · intro b hb
    simp [handleGet, hping, hsd, hc, hp, hgcc, hb]
  · intro b hb
    have hcache : (handleGet cfg st key (.ok b)).st.cache =
        cacheMaybeAdd cfg key b st.cache := by
      simp [handleGet, hping, hsd, hc, hp, hb]
    refine ⟨?_, hcache, ?_⟩
    · simp [handleGet, hping, hsd, hc, hp, hb]
    · intro hcap1 hcap2
      rw [hcache]
      exact cacheMaybeAdd_get cfg key b st.cache hcap1 hcap2

/-- Claim C5 witness: a ten-byte body containing the marker is blocked and
kept out of the cache; a clean three-byte body is served and cached. -/
theorem claim5_depfile_filter_witness :
    (isGccDepfile bodyDep = true ↔
      (bodyDep.length ≤ 100000 ∧ ∃ s t, bodyDep = s ++ depfileMarker ++ t)) ∧
    handleGet cfgNoDep initialState "x" (.ok bodyDep) =
      ⟨onAWSSuccess initialState,
        some { status := 404, body := .empty, isBlockedGccDepfile := true },
        [S3Op.getObject "x"]⟩ ∧
    (handleGet cfgNoDep initialState "x" (.ok [1, 2, 3])).resp =
      some { status := 200, body := .bytes [1, 2, 3] } ∧
    cacheGet "x" (handleGet cfgNoDep initialState "x" (.ok [1, 2, 3])).st.cache =
      some [1, 2, 3] := by
  obtain ⟨hiff, hblock, hpass⟩ :=
    claim5_depfile_filter cfgNoDep initialState "x" (by decide) (by decide)
      (by decide) (by decide) (by decide)
  exact ⟨hiff bodyDep, hblock bodyDep (by decide),
    (hpass [1, 2, 3] (by decide)).1,
    (hpass [1, 2, 3] (by decide)).2.2 (by decide) (by decide)⟩

/-- Claim C6 (confirmed): the breaker error callback never counts a
credential-expiry error; any other error increments the consecutive-error
counter; when the incremented counter reaches errorsBeforePausing while the
breaker is closed, the breaker opens and the auto-close timer is scheduled
for pauseMinutes (in milliseconds); the timer callback closes the breaker
and resets the counter to zero; any remote success resets the counter to
zero. -/
theorem claim6_breaker (cfg : Config) (st : ServerState) :
    (∀ e, isExpiredTokenError e = true → onAWSError cfg st e = st) ∧
    (∀ e, isExpiredTokenError e = false →
      (onAWSError cfg st e).awsErrors = st.awsErrors + 1) ∧
    (∀ e, isExpiredTokenError e = false → st.awsPaused = false →
      st.awsErrors + 1 = cfg.errorsBeforePausing →
      (onAWSError cfg st e).awsPaused = true ∧
      (onAWSError cfg st e).pauseTimerMs = some (cfg.pauseMinutes * 60 * 1000)) ∧
    ((firePauseTimer st).awsPaused = false ∧ (firePauseTimer st).awsErrors = 0) ∧
    (onAWSSuccess st).awsErrors = 0 := by
  refine ⟨fun e he => onAWSError_of_expired cfg st e he,
          fun e he => onAWSError_awsErrors_of_not_expired cfg st e he,
          fun e he hp hn => ?_, ⟨rfl, rfl⟩, rfl⟩
  have hge : st.awsErrors + 1 ≥ cfg.errorsBeforePausing := le_of_eq hn.symm
  unfold onAWSError
  rw [he]
  rw [if_neg (by simp), if_pos hge]
  exact ⟨rfl, rfl⟩

/-- Claim C6 witness: with threshold 1, one plain error opens the breaker
and schedules the sixty-second auto-close; an expired token changes nothing;
firing the timer closes the breaker; a success zeroes the counter. -/
theorem claim6_breaker_witness :
    (onAWSError cfgBrk initialState errExpired = initialState) ∧
    ((onAWSError cfgBrk initialState errPlain).awsErrors = 1) ∧
    ((onAWSError cfgBrk initialState errPlain).awsPaused = true ∧
      (onAWSError cfgBrk initialState errPlain).pauseTimerMs =
        some (cfgBrk.pauseMinutes * 60 * 1000)) ∧
    ((firePauseTimer initialState).awsPaused = false ∧
      (firePauseTimer initialState).awsErrors = 0) ∧
    (onAWSSuccess initialState).awsErrors = 0 := by
  obtain ⟨a, b, c, d, e⟩ := claim6_breaker cfgBrk initialState
  exact ⟨a errExpired (by decide), b errPlain (by decide),
    c errPlain (by decide) (by decide) (by decide), d, e⟩

/-- Claim C7 (confirmed): a fully spooled PUT body that is larger than a
non-zero maxEntrySizeBytes, or that would push the pending-upload bytes over
the maxPendingUploadMB budget, is answered 200 with no upload launched and
the spool file unlinked (the state is unchanged); with maxEntrySizeBytes = 0
no per-entry cap applies and any body within the budget launches the
upload. -/
theorem claim7_put_caps (cfg : Config) (st : ServerState) (key : String)
    (hk : key ≠ "") (hsp : key ∉ st.spool) (hp : st.awsPaused = false) :
    (∀ size : Nat, ((cfg.maxEntrySizeBytes ≠ 0 ∧ size > cfg.maxEntrySizeBytes) ∨
        st.pendingUploadBytes + (size : Int) >
          (cfg.maxPendingUploadMB : Int) * 1024 * 1024) →
      handlePut cfg st key (some size) =
        ⟨st, some { status := 200, body := .empty }, []⟩) ∧
    (∀ size : Nat, cfg.maxEntrySizeBytes = 0 →
      st.pendingUploadBytes + (size : Int) ≤
        (cfg.maxPendingUploadMB : Int) * 1024 * 1024 →
      (handlePut cfg st key (some size)).calls = [S3Op.uploadObject key]) := by
  constructor
  · intro size hcase
    unfold handlePut
    rw [if_neg hk, if_neg hsp]
    show handlePutSized cfg st key size =
      ⟨st, some { status := 200, body := .empty }, []⟩
    unfold handlePutSized
    rw [if_neg (by simp [hp])]
    rcases hcase with h1 | h1
    · rw [if_pos h1]
    · by_cases h2 : cfg.maxEntrySizeBytes ≠ 0 ∧ size > cfg.maxEntrySizeBytes
      · rw [if_pos h2]
      · rw [if_neg h2, if_pos h1]
  · intro size h0 hbud
    unfold handlePut
    rw [if_neg hk, if_neg hsp]
    show (handlePutSized cfg st key size).calls = [S3Op.uploadObject key]
    unfold handlePutSized
    rw [if_neg (by simp [hp]), if_neg (by simp [h0]), if_neg (not_lt.mpr hbud)]

/-- Claim C7 witness: with no per-entry cap and a 10 MB budget, a twenty
megabyte body is rejected with 200 and no upload, while a five-byte body
launches the upload. -/
theorem claim7_put_caps_witness :
    handlePut cfgSync initialState "k" (some 20000000) =
      ⟨initialState, some { status := 200, body := .empty }, []⟩ ∧
    (handlePut cfgSync initialState "k" (some 5)).calls =
      [S3Op.uploadObject "k"] := by
  obtain ⟨a, b⟩ := claim7_put_caps cfgSync initialState "k" (by decide)
    (by decide) (by decide)
  exact ⟨a 20000000 (Or.inr (by decide)), b 5 (by decide) (by decide)⟩

/-- Claim C10 (confirmed): whenever a remote-store error is turned into an
HTTP response (GET, HEAD, DELETE, and PUT in synchronous mode), the response
body is the JSON serialization of the error object, the Content-Type header
is set to application/json, and the serialized body is never empty. -/
theorem claim10_error_responses (cfg : Config) (st : ServerState)
    (key : String) (e : S3Error) (size : Nat)
    (hping : key ≠ "ping") (hsd : key ≠ "shutdown")
    (hc : cacheContains key st.cache = false) (hp : st.awsPaused = false)
    (hinf : lookupKey key st.inflight = some size)
    (hsync : cfg.asyncUploadEnabled = false) :
    (handleGet cfg st key (.err e)).resp = some (errorResponse cfg e 404) ∧
    (handleHead cfg st key (some e)).resp = some (errorResponse cfg e 404) ∧
    (handleDelete cfg st key (some e)).resp = some (errorResponse cfg e 404) ∧
    (completeUpload cfg st key (some e)).resp = some (errorResponse cfg e 200) ∧
    (errorResponse cfg e 404).body = .str (jsonStringify e) ∧
    (errorResponse cfg e 200).body = .str (jsonStringify e) ∧
    (errorResponse cfg e 404).contentType = some "application/json" ∧
    (errorResponse cfg e 200).contentType = some "application/json" ∧
    0 < (jsonStringify e).length := by
  refine ⟨?_, ?_, ?_, ?_, rfl, rfl, rfl, rfl, ?_⟩
  · by_cases h5 : (errorResponse cfg e 404).status = 500 <;>
      by_cases h6 : e.Code = some "NoSuchKey" <;>
        simp [handleGet, hping, hsd, hc, hp, h5, h6]
  · by_cases h5 : (errorResponse cfg e 404).status = 500 <;>
      simp [handleHead, hc, hp, h5]
  · by_cases h5 : (errorResponse cfg e 404).status = 500 <;>
      simp [handleDelete, h5]
  · unfold completeUpload
    rw [hinf]
    show (completeUploadErr cfg st key size e).resp =
      some (errorResponse cfg e 200)
    unfold completeUploadErr
    by_cases h5 : cfg.asyncUploadEnabled = false ∧
        (errorResponse cfg e 200).status = 500
    · rw [if_pos h5]
    · rw [if_neg h5]
      simp [hsync]
  · show 0 < (jsonStringify e).length
    unfold jsonStringify
    simp only [String.length_append]
    have h1 : 0 < ("\x7b \"Code\": " : String).length := by decide
    omega

/-- Claim C10 witness: a retryable error on a GET miss is answered with the
serialized error body and the JSON content type. -/
theorem claim10_error_responses_witness :
    (handleGet cfgSync stInf "k" (.err errRetryable)).resp =
      some (errorResponse cfgSync errRetryable 404) ∧
    (completeUpload cfgSync stInf "k" (some errRetryable)).resp =
      some (errorResponse cfgSync errRetryable 200) ∧
    (errorResponse cfgSync errRetryable 404).body =
      .str (jsonStringify errRetryable) ∧
    (errorResponse cfgSync errRetryable 404).contentType =
      some "application/json" ∧
    0 < (jsonStringify errRetryable).length := by
  obtain ⟨a, _, _, b, c, _, d, _, e⟩ :=
    claim10_error_responses cfgSync stInf "k" errRetryable 3 (by decide)
      (by decide) (by decide) (by decide) (by decide) (by decide)
  exact ⟨a, b, c, d, e⟩

/-- Claim C2 counterexample: with the breaker open, a DELETE still issues the
remote deleteObject call, refuting the claim that while the breaker is open
no request contacts the store. -/
theorem claim2_counterexample :
    (handleDelete cfgSync stPaused "k" none).calls = [S3Op.deleteObject "k"] ∧
    (handleDelete cfgSync stPaused "k" none).calls ≠ [] := by
  decide

/-- Claim C2 (corrected): while the breaker is open, GET and HEAD on keys not
in the memory cache respond 404 without a store call, and a PUT body is
spooled then discarded with 200 and no store call; DELETE, however, always
issues the remote delete, breaker open or not. -/
theorem claim2_breaker_short_circuit (cfg : Config) (st : ServerState)
    (key : String) (size : Nat) (out : GetOutcome) (oute outd : Option S3Error)
    (hp : st.awsPaused = true) (hping : key ≠ "ping") (hsd : key ≠ "shutdown")
    (hc : cacheContains key st.cache = false) (hk : key ≠ "")
    (hsp : key ∉ st.spool) :
    handleGet cfg st key out =
      ⟨st, some { status := 404, body := .empty }, []⟩ ∧
    handleHead cfg st key oute =
      ⟨st, some { status := 404, body := .empty }, []⟩ ∧
    handlePut cfg st key (some size) =
      ⟨st, some { status := 200, body := .empty }, []⟩ ∧
    (handleDelete cfg st key outd).calls = [S3Op.deleteObject key] := by
  refine ⟨?_, ?_, ?_, ?_⟩
  · unfold handleGet
    rw [if_neg hping, if_neg hsd, if_neg (by simp [hc]), if_pos hp]
  · unfold handleHead
    rw [if_neg (by simp [hc]), if_pos hp]
  · unfold handlePut
    rw [if_neg hk, if_neg hsp]
    show handlePutSized cfg st key size =
      ⟨st, some { status := 200, body := .empty }, []⟩
    unfold handlePutSized
    rw [if_pos hp]
  · rcases outd with _ | e
    · rfl
    · by_cases h5 : (errorResponse cfg e 404).status = 500 <;>
        simp [handleDelete, h5]

/-- Claim C2 witness: a concrete open-breaker state short-circuits GET, HEAD
and PUT while DELETE still calls the store. -/
theorem claim2_breaker_short_circuit_witness :
    handleGet cfgSync stPaused "k" (.ok [1]) =
      ⟨stPaused, some { status := 404, body := .empty }, []⟩ ∧
    handleHead cfgSync stPaused "k" none =
      ⟨stPaused, some { status := 404, body := .empty }, []⟩ ∧
    handlePut cfgSync stPaused "k" (some 3) =
      ⟨stPaused, some { status := 200, body := .empty }, []⟩ ∧
    (handleDelete cfgSync stPaused "k" none).calls = [S3Op.deleteObject "k"] :=
  claim2_breaker_short_circuit cfgSync stPaused "k" 3 (.ok [1]) none none
    (by decide) (by decide) (by decide) (by decide) (by decide) (by decide)

/-- Claim C3 counterexample: a credential-expiry error on a GET produces the
500 response and the process exit, but the exit code is 0 — process.exit()
is called with no argument and process.exitCode was never assigned on this
path — not 1 as the claim states. -/
theorem claim3_counterexample :
    respStatus (handleGet cfgSync initialState "k" (.err errExpired)) =
      some 500 ∧
    respExit (handleGet cfgSync initialState "k" (.err errExpired)) =
      some (some 0) ∧
    respExit (handleGet cfgSync initialState "k" (.err errExpired)) ≠
      some (some 1) := by
  decide

/-- Claim C3 (corrected): a remote error classified as credential expiry
yields status 500 (on GET, HEAD, DELETE and synchronous PUT), is never
counted toward the breaker, and the process exits after the response — with
exit code 0, because process.exit() is invoked with no argument while
process.exitCode is unset. -/
theorem claim3_credential_expiry (cfg : Config) (st : ServerState)
    (key : String) (e : S3Error) (size : Nat)
    (hping : key ≠ "ping") (hsd : key ≠ "shutdown")
    (hc : cacheContains key st.cache = false) (hp : st.awsPaused = false)
    (he : isExpiredTokenError e = true)
    (hinf : lookupKey key st.inflight = some size)
    (hsync : cfg.asyncUploadEnabled = false) :
    respStatus (handleGet cfg st key (.err e)) = some 500 ∧
    respExit (handleGet cfg st key (.err e)) = some (some 0) ∧
    (handleGet cfg st key (.err e)).st.awsErrors = st.awsErrors ∧
    respStatus (handleHead cfg st key (some e)) = some 500 ∧
    (handleHead cfg st key (some e)).st.awsErrors = st.awsErrors ∧
    respStatus (handleDelete cfg st key (some e)) = some 500 ∧
    (handleDelete cfg st key (some e)).st.awsErrors = st.awsErrors ∧
    respStatus (completeUpload cfg st key (some e)) = some 500 ∧
    respExit (completeUpload cfg st key (some e)) = some (some 0) ∧
    (completeUpload cfg st key (some e)).st.awsErrors = st.awsErrors := by
  have hg404 : getHttpResponseStatusCode e 404 cfg = 500 := by
    unfold getHttpResponseStatusCode
    rw [if_pos he]
  have hg200 : getHttpResponseStatusCode e 200 cfg = 500 := by
    unfold getHttpResponseStatusCode
    rw [if_pos he]
  have hs404 : (errorResponse cfg e 404).status = 500 := hg404
  have hs200 : (errorResponse cfg e 200).status = 500 := hg200
  have hx404 : (errorResponse cfg e 404).exitsProcess = some 0 := by
    show (if getHttpResponseStatusCode e 404 cfg = 500 then some 0 else none) =
      some 0
    rw [if_pos hg404]
  have hx200 : (errorResponse cfg e 200).exitsProcess = some 0 := by
    show (if getHttpResponseStatusCode e 200 cfg = 500 then some 0 else none) =
      some 0
    rw [if_pos hg200]
  have hcode : e.Code = some "ExpiredToken" := by
    have h2 := he
    unfold isExpiredTokenError at h2
    exact of_decide_eq_true h2
  have hns : ¬(e.Code = some "NoSuchKey") := by rw [hcode]; simp
  have hcu : completeUpload cfg st key (some e) =
      ⟨{ onAWSError cfg st e with dead := true },
        some (errorResponse cfg e 200), []⟩ := by
    unfold completeUpload
    rw [hinf]
    show completeUploadErr cfg st key size e =
      ⟨{ onAWSError cfg st e with dead := true },
        some (errorResponse cfg e 200), []⟩
    unfold completeUploadErr
    rw [if_pos ⟨hsync, hs200⟩]
  refine ⟨?_, ?_, ?_, ?_, ?_, ?_, ?_, ?_, ?_, ?_⟩
  · simp [handleGet, hping, hsd, hc, hp, hs404, hns, respStatus]
  · simp [handleGet, hping, hsd, hc, hp, hs404, hx404, hns, respExit]
  · simp [handleGet, hping, hsd, hc, hp, hs404, hns, onAWSError_of_expired, he]
  · simp [handleHead, hc, hp, hs404, respStatus]
  · simp [handleHead, hc, hp, hs404, onAWSError_of_expired, he]
  · simp [handleDelete, hs404, respStatus]
  · simp [handleDelete, hs404, onAWSError_of_expired, he]
  · rw [hcu]
    simp [respStatus, hs200]
  · rw [hcu]
    simp [respExit, hx200]
  · rw [hcu]
    simp [onAWSError_of_expired, he]

/-- Claim C3 witness: the amended claim evaluated at an expired token on a
concrete in-flight state. -/
theorem claim3_credential_expiry_witness :
    respStatus (handleGet cfgSync stInf "k" (.err errExpired)) = some 500 ∧
    respExit (handleGet cfgSync stInf "k" (.err errExpired)) = some (some 0) ∧
    (handleGet cfgSync stInf "k" (.err errExpired)).st.awsErrors =
      stInf.awsErrors ∧
    respStatus (handleHead cfgSync stInf "k" (some errExpired)) = some 500 ∧
    (handleHead cfgSync stInf "k" (some errExpired)).st.awsErrors =
      stInf.awsErrors ∧
    respStatus (handleDelete cfgSync stInf "k" (some errExpired)) = some 500 ∧
    (handleDelete cfgSync stInf "k" (some errExpired)).st.awsErrors =
      stInf.awsErrors ∧
    respStatus (completeUpload cfgSync stInf "k" (some errExpired)) =
      some 500 ∧
    respExit (completeUpload cfgSync stInf "k" (some errExpired)) =
      some (some 0) ∧
    (completeUpload cfgSync stInf "k" (some errExpired)).st.awsErrors =
      stInf.awsErrors :=
  claim3_credential_expiry cfgSync stInf "k" errExpired 3 (by decide)
    (by decide) (by decide) (by decide) (by decide) (by decide) (by decide)

/-- Claim C4 counterexample: a retryable remote error on a DELETE with
allowOffline enabled is downgraded to 404, not 200 as the claim states
(src/server.ts line 436 passes StatusCode.NotFound as the soft status for
the DELETE handler). -/
theorem claim4_counterexample :
    respStatus (handleDelete cfgOffline initialState "k" (some errRetryable)) =
      some 404 ∧
    respStatus (handleDelete cfgOffline initialState "k" (some errRetryable)) ≠
      some 200 := by
  decide

/-- Claim C4 (corrected): with allowOffline, a retryable non-expiry remote
error is downgraded to the soft status 404 for GET, HEAD and DELETE, and to
200 for PUT in synchronous mode; the error still increments the breaker
counter in every case. -/
theorem claim4_offline_downgrade (cfg : Config) (st : ServerState)
    (key : String) (e : S3Error) (size : Nat)
    (hoff : cfg.allowOffline = true) (hre : e.retryable = true)
    (hne : isExpiredTokenError e = false) (hns : ¬(e.Code = some "NoSuchKey"))
    (hping : key ≠ "ping") (hsd : key ≠ "shutdown")
    (hc : cacheContains key st.cache = false) (hp : st.awsPaused = false)
    (hinf : lookupKey key st.inflight = some size)
    (hsync : cfg.asyncUploadEnabled = false) :
    respStatus (handleGet cfg st key (.err e)) = some 404 ∧
    (handleGet cfg st key (.err e)).st.awsErrors = st.awsErrors + 1 ∧
    respStatus (handleHead cfg st key (some e)) = some 404 ∧
    (handleHead cfg st key (some e)).st.awsErrors = st.awsErrors + 1 ∧
    respStatus (handleDelete cfg st key (some e)) = some 404 ∧
    (handleDelete cfg st key (some e)).st.awsErrors = st.awsErrors + 1 ∧
    respStatus (completeUpload cfg st key (some e)) = some 200 ∧
    (completeUpload cfg st key (some e)).st.awsErrors = st.awsErrors + 1 := by
  have hig : shouldIgnoreError e cfg = true := by
    unfold shouldIgnoreError isIgnorableError
    rw [hoff, hre]
    rfl
  have hg404 : getHttpResponseStatusCode e 404 cfg = 404 := by
    unfold getHttpResponseStatusCode
    rw [if_neg (by simp [hne]), if_pos hig]
  have hg200 : getHttpResponseStatusCode e 200 cfg = 200 := by
    unfold getHttpResponseStatusCode
    rw [if_neg (by simp [hne]), if_pos hig]
  have hs404 : (errorResponse cfg e 404).status = 404 := hg404
  have hs200 : (errorResponse cfg e 200).status = 200 := hg200
  have hn500a : ¬((errorResponse cfg e 404).status = 500) := by
    rw [hs404]; decide
  have hn500b : ¬((errorResponse cfg e 200).status = 500) := by
    rw [hs200]; decide
  have hcu : completeUpload cfg st key (some e) =
      ⟨{ onAWSError cfg st e with
           pendingUploadBytes := st.pendingUploadBytes - (size : Int),
           inflight := eraseKey key st.inflight,
           spool := st.spool.erase key },
        some (errorResponse cfg e 200), []⟩ := by
    unfold completeUpload
    rw [hinf]
    show completeUploadErr cfg st key size e =
      ⟨{ onAWSError cfg st e with
           pendingUploadBytes := st.pendingUploadBytes - (size : Int),
           inflight := eraseKey key st.inflight,
           spool := st.spool.erase key },
        some (errorResponse cfg e 200), []⟩
    unfold completeUploadErr
    rw [if_neg (by simp [hn500b])]
    simp [hsync]
  refine ⟨?_, ?_, ?_, ?_, ?_, ?_, ?_, ?_⟩
  · simp [handleGet, hping, hsd, hc, hp, hn500a, hns, respStatus, hs404]
  · simp [handleGet, hping, hsd, hc, hp, hn500a, hns,
      onAWSError_awsErrors_of_not_expired, hne]
  · simp [handleHead, hc, hp, hn500a, respStatus, hs404]
  · simp [handleHead, hc, hp, hn500a, onAWSError_awsErrors_of_not_expired, hne]
  · simp [handleDelete, hn500a, respStatus, hs404]
  · simp [handleDelete, hn500a, onAWSError_awsErrors_of_not_expired, hne]
  · rw [hcu]
    simp [respStatus, hs200]
  · rw [hcu]
    simp [onAWSError_awsErrors_of_not_expired, hne]

/-- Claim C4 witness: the amended claim evaluated at a retryable error with
allowOffline on, with one in-flight upload for the key. -/
theorem claim4_offline_downgrade_witness :
    respStatus (handleGet cfgOffline stInf "k" (.err errRetryable)) =
      some 404 ∧
    (handleGet cfgOffline stInf "k" (.err errRetryable)).st.awsErrors =
      stInf.awsErrors + 1 ∧
    respStatus (handleHead cfgOffline stInf "k" (some errRetryable)) =
      some 404 ∧
    (handleHead cfgOffline stInf "k" (some errRetryable)).st.awsErrors =
      stInf.awsErrors + 1 ∧
    respStatus (handleDelete cfgOffline stInf "k" (some errRetryable)) =
      some 404 ∧
    (handleDelete cfgOffline stInf "k" (some errRetryable)).st.awsErrors =
      stInf.awsErrors + 1 ∧
    respStatus (completeUpload cfgOffline stInf "k" (some errRetryable)) =
      some 200 ∧
    (completeUpload cfgOffline stInf "k" (some errRetryable)).st.awsErrors =
      stInf.awsErrors + 1 :=
  claim4_offline_downgrade cfgOffline stInf "k" errRetryable 3 (by decide)
    (by decide) (by decide) (by decide) (by decide) (by decide) (by decide)
    (by decide) (by decide) (by decide)

/-- Claim C1 counterexample: PUT "k" (with the upload completing
successfully) followed by GET "k" with the remote returning the bytes: the
PUT pipeline left the memory cache empty and the GET response is not marked
fromCache, refuting the claim that a cache entry is created when the PUT
body is observed and that the following GET is served from the cache. -/
theorem claim1_counterexample :
    ((completeUpload cfgSync (handlePut cfgSync initialState "k" (some 3)).st
        "k" none).st.cache = []) ∧
    ((handleGet cfgSync (completeUpload cfgSync
          (handlePut cfgSync initialState "k" (some 3)).st "k" none).st
        "k" (.ok [1, 2, 3])).resp.map HttpResponse.fromCache = some false) := by
  decide

/-- Claim C1 (corrected): the PUT pipeline never writes to the memory cache;
an entry is created only on a successful remote GET, subject to the depfile
filter and admission.  Hence PUT k v followed by GET k yields 200 with body
v via a remote fetch that is not marked fromCache, and only the subsequent
GET k is served from the cache, marked fromCache, with body v. -/
theorem claim1_put_get (cfg : Config) (st : ServerState) (key : String)
    (v : List Nat) (hping : key ≠ "ping") (hsd : key ≠ "shutdown")
    (hc : cacheContains key st.cache = false) (hp : st.awsPaused = false)
    (hfilter : cfg.allowGccDepfiles = true ∨ isGccDepfile v = false)
    (hcap1 : v.length ≤ cfg.cacheMaxEntrySizeBytes)
    (hcap2 : v.length ≤ cfg.cacheMaxTotalBytes) :
    (∀ stat, ((handlePut cfg st key stat).st).cache = st.cache) ∧
    (∀ err, ((completeUpload cfg st key err).st).cache = st.cache) ∧
    (handleGet cfg st key (.ok v)).resp =
      some { status := 200, body := .bytes v } ∧
    (∀ out2, (handleGet cfg (handleGet cfg st key (.ok v)).st key out2).resp =
      some { status := 200, body := .bytes v, fromCache := true }) := by
  have hnb : ¬(cfg.allowGccDepfiles = false ∧ isGccDepfile v = true) := by
    rcases hfilter with h | h
    · rintro ⟨h1, _⟩
      rw [h] at h1
      simp at h1
    · rintro ⟨_, h2⟩
      rw [h] at h2
      simp at h2
  refine ⟨?_, ?_, ?_, ?_⟩
  · intro stat
    unfold handlePut
    by_cases hk : key = ""
    · rw [if_pos hk]
    by_cases hsp : key ∈ st.spool
    · rw [if_neg hk, if_pos hsp]
    rw [if_neg hk, if_neg hsp]
    rcases stat with _ | size
    · rfl
    show (handlePutSized cfg st key size).st.cache = st.cache
    unfold handlePutSized
    split_ifs <;> rfl
  · intro err
    unfold completeUpload
    rcases hl : lookupKey key st.inflight with _ | size
    · rfl
    rcases err with _ | e
    · rfl
    show (completeUploadErr cfg st key size e).st.cache = st.cache
    unfold completeUploadErr
    split_ifs <;> simp
  · simp [handleGet, hping, hsd, hc, hp, hnb]
  · intro out2
    have hcache : (handleGet cfg st key (.ok v)).st.cache =
        cacheMaybeAdd cfg key v st.cache := by
      simp [handleGet, hping, hsd, hc, hp, hnb]
    have hcontains :
        cacheContains key (handleGet cfg st key (.ok v)).st.cache = true := by
      rw [hcache]
      exact cacheContains_maybeAdd cfg key v st.cache hcap1 hcap2
    have hget2 :
        cacheGet key (handleGet cfg st key (.ok v)).st.cache = some v := by
      rw [hcache]
      exact cacheMaybeAdd_get cfg key v st.cache hcap1 hcap2
    generalize hst1 : (handleGet cfg st key (.ok v)).st = st1 at hcontains hget2 ⊢
    simp [handleGet, hping, hsd, hcontains, hget2]

/-- Claim C1 witness: GET after PUT is served by the remote fetch (not
fromCache); the GET after that is served from the cache. -/
theorem claim1_put_get_witness :
    (handleGet cfgSync initialState "k" (.ok [1, 2, 3])).resp =
      some { status := 200, body := .bytes [1, 2, 3] } ∧
    (handleGet cfgSync
        (handleGet cfgSync initialState "k" (.ok [1, 2, 3])).st "k"
        (.ok [1, 2, 3])).resp =
      some { status := 200, body := .bytes [1, 2, 3], fromCache := true } := by
  obtain ⟨_, _, a, b⟩ := claim1_put_get cfgSync initialState "k" [1, 2, 3]
    (by decide) (by decide) (by decide) (by decide) (Or.inl (by decide))
    (by decide) (by decide)
  exact ⟨a, b (.ok [1, 2, 3])⟩

/-- Claim C8 (confirmed): along any event trace the process survives, the
pending-upload byte counter equals the sum of the sizes of the uploads in
flight — in particular it is never negative — the in-flight keys are
pairwise distinct, and a PUT whose spool file already exists is answered 200
without starting a new upload and without touching the state. -/
theorem claim8_pending_invariant (cfg : Config) (st : ServerState)
    (evs : List Ev) (h : pendingInv st)
    (hd : (run cfg st evs).dead = false) :
    pendingInv (run cfg st evs) ∧
    0 ≤ (run cfg st evs).pendingUploadBytes ∧
    ((run cfg st evs).inflight.map Prod.fst).Nodup ∧
    (∀ (st2 : ServerState) (k : String) (stat : Option Nat),
      k ≠ "" → k ∈ st2.spool →
      handlePut cfg st2 k stat =
        ⟨st2, some { status := 200, body := .empty }, []⟩) := by
  have hrun := pendingInv_run cfg st evs h hd
  refine ⟨hrun, ?_, hrun.2.1, ?_⟩
  · rw [hrun.1]
    exact Int.natCast_nonneg _
  · intro st2 k stat hk hsp
    unfold handlePut
    rw [if_neg hk, if_pos hsp]

/-- Claim C8 witness: the invariant evaluated after two admitted PUTs and one
completed upload; the duplicate-PUT clause evaluated on the resulting
state. -/
theorem claim8_pending_invariant_witness :
    pendingInv (run cfgSync initialState evs8) ∧
    0 ≤ (run cfgSync initialState evs8).pendingUploadBytes ∧
    ((run cfgSync initialState evs8).inflight.map Prod.fst).Nodup ∧
    (∀ (st2 : ServerState) (k : String) (stat : Option Nat),
      k ≠ "" → k ∈ st2.spool →
      handlePut cfgSync st2 k stat =
        ⟨st2, some { status := 200, body := .empty }, []⟩) :=
  claim8_pending_invariant cfgSync initialState evs8 (by decide) (by decide)

/-- Claim C9 (confirmed): when stat of the spool file fails after the PUT
body stream closed, the handler responds with the default status 200 and an
empty body, keeps the spool file, and leaves the pending-upload counter and
the rest of the state unchanged; because the spool file is never removed
while the process lives, every later PUT for that key is answered 200 with
no upload started. -/
theorem claim9_stat_failure (cfg : Config) (st : ServerState) (key : String)
    (evs : List Ev) (stat2 : Option Nat) (hk : key ≠ "")
    (hsp : key ∉ st.spool) (hinf : key ∉ st.inflight.map Prod.fst) :
    handlePut cfg st key none =
      ⟨{ st with spool := key :: st.spool },
        some { status := 200, body := .empty }, []⟩ ∧
    (∀ st2, st2 = run cfg { st with spool := key :: st.spool } evs →
      st2.dead = false →
      key ∈ st2.spool ∧
      handlePut cfg st2 key stat2 =
        ⟨st2, some { status := 200, body := .empty }, []⟩) := by
  constructor
  · unfold handlePut
    rw [if_neg hk, if_neg hsp]
  · rintro st2 rfl hd
    have hstuck : keyStuck key
        (run cfg { st with spool := key :: st.spool } evs) :=
      keyStuck_run cfg _ evs key ⟨List.mem_cons_self key st.spool, hinf⟩ hd
    refine ⟨hstuck.1, ?_⟩
    unfold handlePut
    rw [if_neg hk, if_pos hstuck.1]

/-- Claim C9 witness: after the stat failure for "k", a trace with an
unrelated GET, a duplicate PUT for "k" and a stray completion still leaves
the spool file in place, and the next PUT for "k" is a 200 no-op. -/
theorem claim9_stat_failure_witness :
    handlePut cfgSync initialState "k" none =
      ⟨{ initialState with spool := ["k"] },
        some { status := 200, body := .empty }, []⟩ ∧
    ("k" ∈ (run cfgSync { initialState with spool := ["k"] } evs9).spool ∧
      handlePut cfgSync (run cfgSync { initialState with spool := ["k"] } evs9)
          "k" (some 4) =
        ⟨run cfgSync { initialState with spool := ["k"] } evs9,
          some { status := 200, body := .empty }, []⟩) := by
  obtain ⟨a, b⟩ := claim9_stat_failure cfgSync initialState "k" evs9 (some 4)
    (by decide) (by decide) (by decide)
  exact ⟨a, b _ rfl (by decide)⟩

end BazelS3Cache
